import Mathlib

/-!
Shallow embedding of `wine-rs` (`src/lib.rs`), a library that configures and
launches programs inside a Wine prefix.

Modelling conventions:
* `OsStr`/`OsString`/`PathBuf` values are modelled as `String`; the only
  operations the source uses on them are construction, `push` (modelled as
  `++`) and `Path::join` (modelled as `pathJoin`, which inserts a `/`
  separator).
* `std::process::Command` is modelled as the immutable descriptor `Command`
  holding the executable, the optional working directory, the environment
  overlay and the argument list.  `Command::env`/`envs` insert into a map in
  the standard library; the overlay is modelled as an association list (the
  source never sets the same key twice, so `List.lookup` agrees with the map).
* The filesystem query `Path::is_file` is a parameter `is_file : String → Bool`
  of `Prefix.«at»`, and the `assert!` that aborts the process on a missing
  `bin/wine` is modelled by returning `none`.
* Spawning a process (`Command::output` in `kill_all`) is a parameter
  `runner : Command → Except String Output`; `Except.error` stands for the
  `io::Error` of a failed process creation and `Output` carries the captured
  exit status and streams.
-/

namespace WineRs

/-- `DebugClass` from `src/lib.rs`: the four Wine debug severity classes. -/
inductive DebugClass where
  | Trace
  | Warn
  | Error
  | Fixme
deriving DecidableEq, Repr

/-- `DebugClass::as_os_str`. -/
def DebugClass.as_os_str : DebugClass → String
  | .Trace => "trace"
  | .Warn => "warn"
  | .Error => "err"
  | .Fixme => "fixme"

/-- `DebugChannel` from `src/lib.rs`: well-known Wine debug channels plus the
open-ended `Other` variant carrying a caller-supplied name. -/
inductive DebugChannel where
  | All
  | Heap
  | LoadDll
  | Module
  | Pid
  | Relay
  | Seh
  | Server
  | Snoop
  | Synchronous
  | Timestamp
  | Fps
  | DebugString
  | ThreadName
  | Other (other : String)
deriving DecidableEq, Repr

/-- `DebugChannel::as_os_str`. -/
def DebugChannel.as_os_str : DebugChannel → String
  | .All => "all"
  | .Heap => "heap"
  | .LoadDll => "loaddll"
  | .Module => "module"
  | .Pid => "pid"
  | .Relay => "relay"
  | .Seh => "seh"
  | .Server => "server"
  | .Snoop => "snoop"
  | .Synchronous => "synchronous"
  | .Timestamp => "timestamp"
  | .Fps => "fps"
  | .DebugString => "debugstr"
  | .ThreadName => "threadname"
  | .Other other => other

/-- `DebugRule` from `src/lib.rs`: one debug directive. -/
structure DebugRule where
  process : Option String
  «class» : Option DebugClass
  channel : DebugChannel
  is_enabled : Bool
deriving DecidableEq, Repr

/-- `DebugRules` from `src/lib.rs`: an ordered rule collection. -/
structure DebugRules where
  rules : List DebugRule := []
deriving DecidableEq, Repr

/-- `DebugRules::new`. -/
def DebugRules.new : DebugRules := {}

/-- `DebugRules::add` (`Vec::push` appends at the end). -/
def DebugRules.add (self : DebugRules) (rule : DebugRule) : DebugRules :=
  { self with rules := self.rules ++ [rule] }

/-- `DebugRules::enable`. -/
def DebugRules.enable (self : DebugRules) (channel : DebugChannel) : DebugRules :=
  self.add { process := none, «class» := none, channel, is_enabled := true }

/-- `DebugRules::disable`. -/
def DebugRules.disable (self : DebugRules) (channel : DebugChannel) : DebugRules :=
  self.add { process := none, «class» := none, channel, is_enabled := false }

/-- `PrefixConfig` from `src/lib.rs`. -/
structure PrefixConfig where
  esync : Bool := false
  msync : Bool := false
deriving DecidableEq, Repr

/-- `Prefix` from `src/lib.rs`. -/
structure Prefix where
  path : String
  dynamic_library_paths : String
  wine : String
  wineserver : String
  regedit : String
  config : PrefixConfig
deriving DecidableEq, Repr

/-- `Path::join` for the relative sub-paths used by the source (the base has no
trailing separator and the joined component is relative). -/
def pathJoin (base rel : String) : String := base ++ "/" ++ rel

/-- The fold in `Prefix::at` that joins the dynamic-library directories with
`:`, inserting the separator before every element except the first. -/
def joinPaths (dirs : List String) : String :=
  dirs.enum.foldl
    (fun acc p => (if p.1 > 0 then acc ++ ":" else acc) ++ p.2) ""

/-- `Prefix::at`.  `is_file` models `Path::is_file`; the source's `assert!`
(which aborts the process when `bin/wine` is not a file) is modelled by
returning `none`. -/
def Prefix.«at» (is_file : String → Bool) (path : String)
    (dynamic_library_paths : List String) (config : PrefixConfig) :
    Option Prefix :=
  let wine := pathJoin path "bin/wine"
  let wineserver := pathJoin path "bin/wineserver"
  let regedit := pathJoin path "bin/regedit"
  if is_file wine then
    some { path
           dynamic_library_paths := joinPaths dynamic_library_paths
           wine
           wineserver
           regedit
           config }
  else
    none

/-- The descriptor held by `std::process::Command`: executable, optional
working directory, environment overlay (association list, see the header
comment) and argument list. -/
structure Command where
  program : String
  cwd : Option String := none
  env : List (String × String) := []
  args : List String := []
deriving DecidableEq, Repr

/-- `Command::new`. -/
def Command.new (program : String) : Command := { program }

/-- `Command::current_dir`. -/
def Command.current_dir (self : Command) (dir : String) : Command :=
  { self with cwd := some dir }

/-- `Command::env` (named `set_env` because `env` is the field accessor). -/
def Command.set_env (self : Command) (key value : String) : Command :=
  { self with env := self.env ++ [(key, value)] }

/-- `Command::envs`. -/
def Command.set_envs (self : Command) (kvs : List (String × String)) : Command :=
  { self with env := self.env ++ kvs }

/-- `Command::arg`. -/
def Command.arg (self : Command) (a : String) : Command :=
  { self with args := self.args ++ [a] }

/-- The body of the per-rule iteration in `Prefix::command`: pushes onto the
accumulated `WINEDEBUG` value the optional process filter and class (each
followed by `:`), the `+`/`-` sign, and the channel name. -/
def DebugRule.encode_into (acc : String) (debug_rule : DebugRule) : String :=
  let acc := match debug_rule.process with
    | some process => acc ++ process ++ ":"
    | none => acc
  let acc := match debug_rule.«class» with
    | some c => acc ++ c.as_os_str ++ ":"
    | none => acc
  let acc := acc ++ (if debug_rule.is_enabled then "+" else "-")
  acc ++ debug_rule.channel.as_os_str

/-- The encoding of one rule on its own (the loop body applied to an empty
accumulator). -/
def DebugRule.encode (debug_rule : DebugRule) : String :=
  DebugRule.encode_into "" debug_rule

/-- The `WINEDEBUG` value built by the loop in `Prefix::command`: the comma
separator is inserted before every rule except the first. -/
def winedebug_value (rules : List DebugRule) : String :=
  rules.enum.foldl
    (fun acc p =>
      DebugRule.encode_into (if p.1 > 0 then acc ++ "," else acc) p.2) ""

/-- `Prefix::command`. -/
def Prefix.command (self : Prefix) (use_start_exe : Bool) (program : String)
    (debug_rules : DebugRules) : Command :=
  let command := Command.new self.wine
  let command := command.current_dir self.path
  let command := command.set_envs
    [("WINEPREFIX", self.path),
     ("DYLD_FALLBACK_LIBRARY_PATH", self.dynamic_library_paths)]
  let command := if self.config.esync then command.set_env "ESYNC" "1" else command
  let command := if self.config.msync then command.set_env "MSYNC" "1" else command
  let command :=
    if !debug_rules.rules.isEmpty then
      command.set_env "WINEDEBUG" (winedebug_value debug_rules.rules)
    else command
  let command := if use_start_exe then command.arg "start" else command
  command.arg program

/-- `std::process::Output`: captured exit status and streams. -/
structure Output where
  status : Int
  stdout : String
  stderr : String
deriving DecidableEq, Repr

/-- The command built by `Prefix::kill_all` before it is run. -/
def Prefix.kill_all_command (self : Prefix) : Command :=
  (((Command.new self.wineserver).current_dir self.path).set_env
      "WINEPREFIX" self.path).arg "-k"

/-- `Prefix::kill_all`.  `runner` models `Command::output`: it runs the
descriptor synchronously and either fails at process creation
(`Except.error`) or returns the captured `Output`, whatever its exit
status. -/
def Prefix.kill_all (runner : Command → Except String Output)
    (self : Prefix) : Except String Output :=
  runner self.kill_all_command

/-- Modelled from the spec: "comma-separated concatenation of each rule's
encoding, in input order" — the separated join written the way §4.1 words
it, used to compare the fold in `Prefix::command` against the spec. -/
def sepTail {α : Type} (sep : String) (f : α → String) : List α → String
  | [] => ""
  | x :: xs => sep ++ f x ++ sepTail sep f xs

/-- Modelled from the spec: the head case of the separated join: the first
element carries no separator. -/
def sepJoin {α : Type} (sep : String) (f : α → String) : List α → String
  | [] => ""
  | x :: xs => f x ++ sepTail sep f xs

/-- Number of occurrences of a character in a string. -/
def count_char (s : String) (c : Char) : Nat := s.data.count c

/-! ### Sample values used by the concrete instantiations -/

/-- A sample prefix rooted at `/r`. -/
def sample_pfx : Prefix :=
  { path := "/r"
    dynamic_library_paths := ""
    wine := "/r/bin/wine"
    wineserver := "/r/bin/wineserver"
    regedit := "/r/bin/regedit"
    config := {} }

/-- A sample fully-populated debug rule. -/
def rule_a : DebugRule :=
  { process := some "foo.exe"
    «class» := some .Error
    channel := .Heap
    is_enabled := false }

/-- A sample filter-free debug rule. -/
def rule_b : DebugRule :=
  { process := none
    «class» := none
    channel := .Fps
    is_enabled := true }

/-! ### Helper lemmas -/

theorem DebugRule.encode_into_eq (acc : String) (r : DebugRule) :
    DebugRule.encode_into acc r = acc ++ DebugRule.encode r := by
  unfold DebugRule.encode DebugRule.encode_into
  cases r.process <;> cases r.«class» <;> cases r.is_enabled <;>
    simp [String.append_assoc]

theorem sep_foldl {α : Type} (sep : String) (f : α → String)
    (step : String → α → String) (hstep : ∀ acc x, step acc x = acc ++ f x)
    (xs : List α) : ∀ (n : Nat) (acc : String),
    (List.enumFrom (n + 1) xs).foldl
        (fun acc p => step (if p.1 > 0 then acc ++ sep else acc) p.2) acc
      = acc ++ sepTail sep f xs := by
  induction xs with
  | nil => intro n acc; simp [sepTail, List.enumFrom]
  | cons x xs ih =>
      intro n acc
      have he : List.enumFrom (n + 1) (x :: xs)
          = (n + 1, x) :: List.enumFrom (n + 2) xs := rfl
      rw [he, List.foldl_cons]
      rw [show (if (n + 1, x).1 > 0 then acc ++ sep else acc) = acc ++ sep from
        by simp]
      rw [hstep]
      have := ih (n + 1) (acc ++ sep ++ f x)
      rw [show (n + 2) = (n + 1) + 1 from rfl] at this
      rw [this]
      simp [sepTail, String.append_assoc]

theorem winedebug_value_eq (rules : List DebugRule) :
    winedebug_value rules = sepJoin "," DebugRule.encode rules := by
  cases rules with
  | nil => rfl
  | cons r rs =>
      have h1 := sep_foldl "," DebugRule.encode DebugRule.encode_into
        DebugRule.encode_into_eq rs 0 (DebugRule.encode_into "" r)
      have h2 : DebugRule.encode_into "" r ++ sepTail "," DebugRule.encode rs
          = sepJoin "," DebugRule.encode (r :: rs) := by
        rw [DebugRule.encode_into_eq]
        simp [sepJoin]
      exact h1.trans h2

theorem joinPaths_eq (dirs : List String) :
    joinPaths dirs = sepJoin ":" (fun d => d) dirs := by
  cases dirs with
  | nil => rfl
  | cons d ds =>
      have h1 := sep_foldl ":" (fun d => d) (fun acc d => acc ++ d)
        (fun _ _ => rfl) ds 0 ("" ++ d)
      have h2 : ("" ++ d) ++ sepTail ":" (fun d => d) ds
          = sepJoin ":" (fun d => d) (d :: ds) := by
        simp [sepJoin]
      exact h1.trans h2

/-- `Prefix::at` with its let-bindings unfolded. -/
theorem Prefix.at_eq (is_file : String → Bool) (path : String)
    (dirs : List String) (config : PrefixConfig) :
    Prefix.«at» is_file path dirs config =
      if is_file (pathJoin path "bin/wine") then
        some { path
               dynamic_library_paths := joinPaths dirs
               wine := pathJoin path "bin/wine"
               wineserver := pathJoin path "bin/wineserver"
               regedit := pathJoin path "bin/regedit"
               config }
      else none := rfl

/-- The full shape of the descriptor built by `Prefix::command`. -/
theorem Prefix.command_eq (pf : Prefix) (use_start_exe : Bool)
    (program : String) (debug_rules : DebugRules) :
    pf.command use_start_exe program debug_rules =
      { program := pf.wine
        cwd := some pf.path
        env :=
          [("WINEPREFIX", pf.path),
           ("DYLD_FALLBACK_LIBRARY_PATH", pf.dynamic_library_paths)] ++
          (if pf.config.esync then [("ESYNC", "1")] else []) ++
          (if pf.config.msync then [("MSYNC", "1")] else []) ++
          (if debug_rules.rules.isEmpty then []
           else [("WINEDEBUG", winedebug_value debug_rules.rules)])
        args := (if use_start_exe then ["start"] else []) ++ [program] } := by
  unfold Prefix.command Command.new Command.current_dir Command.set_envs
    Command.set_env Command.arg
  cases he : pf.config.esync <;> cases hm : pf.config.msync <;>
    cases hr : debug_rules.rules.isEmpty <;>
    cases hs : use_start_exe <;> simp

theorem count_char_append (s t : String) (c : Char) :
    count_char (s ++ t) c = count_char s c + count_char t c := by
  simp [count_char, String.data_append, List.count_append]

theorem sepTail_count_comma (f : DebugRule → String) (rs : List DebugRule)
    (h : ∀ r ∈ rs, count_char (f r) ',' = 0) :
    count_char (sepTail "," f rs) ',' = rs.length := by
  induction rs with
  | nil => rfl
  | cons r rs ih =>
      have hr : count_char (f r) ',' = 0 := h r (by simp)
      have hrs : ∀ x ∈ rs, count_char (f x) ',' = 0 :=
        fun x hx => h x (by simp [hx])
      have h1 : count_char "," ',' = 1 := rfl
      simp [sepTail, count_char_append, hr, ih hrs, h1]
      omega

/-- The per-rule encoding, with the four parts spelled out. -/
theorem DebugRule.encode_parts (r : DebugRule) :
    DebugRule.encode r =
      (match r.process with | some p => p ++ ":" | none => "") ++
      (match r.«class» with | some c => c.as_os_str ++ ":" | none => "") ++
      (if r.is_enabled then "+" else "-") ++ r.channel.as_os_str := by
  unfold DebugRule.encode DebugRule.encode_into
  cases r.process <;> cases r.«class» <;> cases r.is_enabled <;>
    simp [String.append_assoc]

theorem Prefix.command_lookup_winedebug (pf : Prefix) (use_start_exe : Bool)
    (program : String) (debug_rules : DebugRules) :
    (pf.command use_start_exe program debug_rules).env.lookup "WINEDEBUG" =
      if debug_rules.rules.isEmpty then none
      else some (winedebug_value debug_rules.rules) := by
  rw [Prefix.command_eq]
  cases he : pf.config.esync <;> cases hm : pf.config.msync <;>
    cases hr : debug_rules.rules.isEmpty <;> simp [List.lookup, hr]

theorem Prefix.command_lookup_esync (pf : Prefix) (use_start_exe : Bool)
    (program : String) (debug_rules : DebugRules) :
    (pf.command use_start_exe program debug_rules).env.lookup "ESYNC" =
      if pf.config.esync then some "1" else none := by
  rw [Prefix.command_eq]
  cases he : pf.config.esync <;> cases hm : pf.config.msync <;>
    cases hr : debug_rules.rules.isEmpty <;> simp [List.lookup, he]

theorem Prefix.command_lookup_msync (pf : Prefix) (use_start_exe : Bool)
    (program : String) (debug_rules : DebugRules) :
    (pf.command use_start_exe program debug_rules).env.lookup "MSYNC" =
      if pf.config.msync then some "1" else none := by
  rw [Prefix.command_eq]
  cases he : pf.config.esync <;> cases hm : pf.config.msync <;>
    cases hr : debug_rules.rules.isEmpty <;> simp [List.lookup, he, hm]

/-! ### Claims -/

/-- C1: in the `WINEDEBUG` value built by `Prefix::command`, each rule is
encoded left to right as optional process filter then optional class name,
each followed by a colon, then `+`/`-` by the enabled flag, then the channel
name; class names are `trace`/`warn`/`err`/`fixme`, channel names the
canonical lowercase identifiers, an `Other` channel is emitted verbatim; the
two concrete example rules encode as `foo.exe:err:-heap` and `+heap`. -/
theorem c1_rule_encoding (pf : Prefix) (use_start_exe : Bool)
    (program : String) (r : DebugRule) :
    (pf.command use_start_exe program { rules := [r] }).env.lookup "WINEDEBUG"
        = some
          ((match r.process with | some p => p ++ ":" | none => "") ++
           (match r.«class» with | some c => c.as_os_str ++ ":" | none => "") ++
           (if r.is_enabled then "+" else "-") ++ r.channel.as_os_str) ∧
      DebugClass.Trace.as_os_str = "trace" ∧
      DebugClass.Warn.as_os_str = "warn" ∧
      DebugClass.Error.as_os_str = "err" ∧
      DebugClass.Fixme.as_os_str = "fixme" ∧
      DebugChannel.Heap.as_os_str = "heap" ∧
      (∀ s : String, (DebugChannel.Other s).as_os_str = s) ∧
      winedebug_value
        [{ process := some "foo.exe", «class» := some .Error,
           channel := .Heap, is_enabled := false }] = "foo.exe:err:-heap" ∧
      winedebug_value
        [{ process := none, «class» := none,
           channel := .Heap, is_enabled := true }] = "+heap" := by
  refine ⟨?_, rfl, rfl, rfl, rfl, rfl, fun s => rfl, by decide, by decide⟩
  rw [Prefix.command_lookup_winedebug, winedebug_value_eq]
  simp [sepJoin, sepTail, DebugRule.encode_parts]

/-- C2: `Prefix::command` omits `WINEDEBUG` entirely for an empty rule set,
and for a non-empty rule set sets it to the comma-separated concatenation of
the per-rule encodings in input order; when the individual encodings are
comma-free the value holds exactly `count-1` commas. -/
theorem c2_winedebug_composition (pf : Prefix) (use_start_exe : Bool)
    (program : String) (debug_rules : DebugRules) :
    ((pf.command use_start_exe program debug_rules).env.lookup "WINEDEBUG" =
      if debug_rules.rules.isEmpty then none
      else some (sepJoin "," DebugRule.encode debug_rules.rules)) ∧
    (debug_rules.rules ≠ [] →
      (∀ r ∈ debug_rules.rules, count_char (DebugRule.encode r) ',' = 0) →
      count_char (winedebug_value debug_rules.rules) ','
        = debug_rules.rules.length - 1) := by
  constructor
  · rw [Prefix.command_lookup_winedebug, winedebug_value_eq]
  · intro hne hcf
    rw [winedebug_value_eq]
    cases hl : debug_rules.rules with
    | nil => exact absurd hl hne
    | cons r rs =>
        rw [hl] at hcf
        have hr : count_char (DebugRule.encode r) ',' = 0 := hcf r (by simp)
        have hrs : ∀ x ∈ rs, count_char (DebugRule.encode x) ',' = 0 :=
          fun x hx => hcf x (by simp [hx])
        simp [sepJoin, count_char_append, hr,
          sepTail_count_comma DebugRule.encode rs hrs]

/-- Witness for C2 on a concrete prefix and a two-rule set. -/
theorem c2_witness :
    (sample_pfx.command false "app.exe"
        { rules := [rule_a, rule_b] }).env.lookup "WINEDEBUG"
      = some "foo.exe:err:-heap,+fps" ∧
    count_char (winedebug_value [rule_a, rule_b]) ',' = 1 := by
  have h := c2_winedebug_composition sample_pfx false "app.exe"
    { rules := [rule_a, rule_b] }
  refine ⟨?_, h.2 (by decide) (by decide)⟩
  rw [h.1]
  decide

/-- C3: the search-path string stored by `Prefix::at` is the `:`-joined
concatenation of the given directories in input order; zero directories give
`""` and `["/a", "/b"]` gives `"/a:/b"`. -/
theorem c3_library_path_join (is_file : String → Bool) (path : String)
    (dirs : List String) (config : PrefixConfig) (pf : Prefix)
    (h : Prefix.«at» is_file path dirs config = some pf) :
    pf.dynamic_library_paths = sepJoin ":" (fun d => d) dirs ∧
    joinPaths [] = "" ∧ joinPaths ["/a", "/b"] = "/a:/b" := by
  refine ⟨?_, rfl, by decide⟩
  rw [Prefix.at_eq] at h
  split at h
  · obtain rfl := Option.some.inj h
    exact joinPaths_eq dirs
  · exact absurd h (by simp)

/-- Witness for C3: a filesystem on which `/r/bin/wine` exists. -/
theorem c3_witness :
    ({ sample_pfx with
        dynamic_library_paths :=
          joinPaths ["/a", "/b"] } : Prefix).dynamic_library_paths
      = "/a:/b" := by
  have h := c3_library_path_join (fun s => s == "/r/bin/wine") "/r"
    ["/a", "/b"] {}
    { sample_pfx with dynamic_library_paths := joinPaths ["/a", "/b"] }
    (by decide)
  rw [h.1]
  decide

/-- C4: `Prefix::at` derives the three executable paths by joining
`bin/wine`, `bin/wineserver`, `bin/regedit` onto the root, and fails exactly
when the derived `bin/wine` path is not an existing regular file; the other
two paths are not checked. -/
theorem c4_construction_check (is_file : String → Bool) (path : String)
    (dirs : List String) (config : PrefixConfig) :
    (Prefix.«at» is_file path dirs config = none ↔
      is_file (pathJoin path "bin/wine") = false) ∧
    (∀ pf, Prefix.«at» is_file path dirs config = some pf →
      pf.wine = pathJoin path "bin/wine" ∧
      pf.wineserver = pathJoin path "bin/wineserver" ∧
      pf.regedit = pathJoin path "bin/regedit") := by
  constructor
  · rw [Prefix.at_eq]
    split
    case isTrue hf => simp [hf]
    case isFalse hf => simp at hf; simp [hf]
  · intro pf h
    rw [Prefix.at_eq] at h
    split at h
    · obtain rfl := Option.some.inj h
      exact ⟨rfl, rfl, rfl⟩
    · exact absurd h (by simp)

/-- Witness for C4: with only `/r/bin/wine` present construction succeeds
(missing `bin/wineserver`/`bin/regedit` do not matter), and with no file
present it fails. -/
theorem c4_witness :
    Prefix.«at» (fun s => s == "/r/bin/wine") "/r" [] {} =
      some sample_pfx ∧
    Prefix.«at» (fun _ => false) "/r" [] {} = none ∧
    sample_pfx.wine = pathJoin "/r" "bin/wine" := by
  have h := c4_construction_check (fun s => s == "/r/bin/wine") "/r" [] {}
  have h2 := c4_construction_check (fun _ => false) "/r" [] {}
  refine ⟨by decide, h2.1.mpr (by decide), ?_⟩
  exact (h.2 _ (by decide)).1

/-- C5: every descriptor built by `Prefix::command` has the prefix root as
working directory, `WINEPREFIX` set to the prefix root and
`DYLD_FALLBACK_LIBRARY_PATH` set to the precomputed joined search path,
for every combination of the other inputs. -/
theorem c5_unconditional_env (pf : Prefix) (use_start_exe : Bool)
    (program : String) (debug_rules : DebugRules) :
    (pf.command use_start_exe program debug_rules).cwd = some pf.path ∧
    (pf.command use_start_exe program debug_rules).env.lookup "WINEPREFIX"
      = some pf.path ∧
    (pf.command use_start_exe program debug_rules).env.lookup
        "DYLD_FALLBACK_LIBRARY_PATH"
      = some pf.dynamic_library_paths := by
  refine ⟨?_, ?_, ?_⟩ <;> simp [Prefix.command_eq, List.lookup]

/-- C6: `ESYNC` is present (with value `1`) in the descriptor's environment
exactly when the esync flag is set, and `MSYNC` exactly when the msync flag
is set; a disabled flag leaves its variable entirely absent. -/
theorem c6_sync_flags (pf : Prefix) (use_start_exe : Bool)
    (program : String) (debug_rules : DebugRules) :
    ((pf.command use_start_exe program debug_rules).env.lookup "ESYNC"
      = if pf.config.esync then some "1" else none) ∧
    ((pf.command use_start_exe program debug_rules).env.lookup "MSYNC"
      = if pf.config.msync then some "1" else none) :=
  ⟨Prefix.command_lookup_esync pf use_start_exe program debug_rules,
   Prefix.command_lookup_msync pf use_start_exe program debug_rules⟩

/-- C7: the argument list of the descriptor built by `Prefix::command` is
the start token (only when requested) followed by the target program, no
matter how many diagnostic rules are supplied. -/
theorem c7_argument_shape (pf : Prefix) (use_start_exe : Bool)
    (program : String) (debug_rules : DebugRules) :
    (pf.command use_start_exe program debug_rules).args
      = (if use_start_exe then ["start"] else []) ++ [program] ∧
    (pf.command true program debug_rules).args.head? = some "start" ∧
    (pf.command true program debug_rules).args.getLast? = some program ∧
    (pf.command false program debug_rules).args = [program] := by
  refine ⟨?_, ?_, ?_, ?_⟩ <;> simp [Prefix.command_eq]

/-- C8: `Prefix::kill_all` synchronously runs the server-terminator
executable with the prefix root as working directory, `WINEPREFIX` set to
the prefix root and the single argument `-k`; the descriptor does not depend
on debug rules or on the config; the captured output is returned as is (a
non-zero exit status is not an error) and an error arises only when process
creation itself fails. -/
theorem c8_kill_all (pf : Prefix) (runner : Command → Except String Output) :
    pf.kill_all_command.program = pf.wineserver ∧
    pf.kill_all_command.cwd = some pf.path ∧
    pf.kill_all_command.env = [("WINEPREFIX", pf.path)] ∧
    pf.kill_all_command.args = ["-k"] ∧
    Prefix.kill_all runner pf = runner pf.kill_all_command ∧
    (∀ out : Output, runner pf.kill_all_command = Except.ok out →
      Prefix.kill_all runner pf = Except.ok out) ∧
    (∀ e : String, Prefix.kill_all runner pf = Except.error e →
      runner pf.kill_all_command = Except.error e) ∧
    (∀ pf2 : Prefix, pf2.path = pf.path → pf2.wineserver = pf.wineserver →
      pf2.kill_all_command = pf.kill_all_command) := by
  refine ⟨rfl, rfl, rfl, rfl, rfl, fun out h => h, fun e h => h, ?_⟩
  intro pf2 hp hw
  simp [Prefix.kill_all_command, Command.new, Command.current_dir,
    Command.set_env, Command.arg, hp, hw]

/-- Witness for C8: a runner whose terminator exits with status 1 still
yields `Except.ok`, and the descriptor fields are as stated. -/
theorem c8_witness :
    Prefix.kill_all (fun _ => Except.ok ⟨1, "", ""⟩) sample_pfx
      = Except.ok ⟨1, "", ""⟩ ∧
    sample_pfx.kill_all_command.args = ["-k"] ∧
    sample_pfx.kill_all_command.cwd = some "/r" := by
  have h := c8_kill_all sample_pfx (fun _ => Except.ok ⟨1, "", ""⟩)
  exact ⟨h.2.2.2.2.2.1 ⟨1, "", ""⟩ rfl, h.2.2.2.1, by rw [h.2.1]; rfl⟩

/-- C9: `Prefix::command` is deterministic: two descriptors built from equal
inputs agree in executable, working directory, environment overlay and
argument list; the rule set is not consumed (in this embedding it is passed
by value and can be reused, as the repeated use in the hypotheses shows). -/
theorem c9_command_deterministic (pf : Prefix) (use_start_exe : Bool)
    (program : String) (debug_rules : DebugRules) (c₁ c₂ : Command)
    (h₁ : c₁ = pf.command use_start_exe program debug_rules)
    (h₂ : c₂ = pf.command use_start_exe program debug_rules) :
    c₁.program = c₂.program ∧ c₁.cwd = c₂.cwd ∧ c₁.env = c₂.env ∧
      c₁.args = c₂.args := by
  subst h₁
  subst h₂
  exact ⟨rfl, rfl, rfl, rfl⟩

/-- Witness for C9 at a concrete prefix, program and rule set. -/
theorem c9_witness :
    (sample_pfx.command true "app.exe" { rules := [rule_a] }).env
      = (sample_pfx.command true "app.exe" { rules := [rule_a] }).env := by
  exact (c9_command_deterministic sample_pfx true "app.exe"
    { rules := [rule_a] }
    (sample_pfx.command true "app.exe" { rules := [rule_a] })
    (sample_pfx.command true "app.exe" { rules := [rule_a] })
    rfl rfl).2.2.1

/-- C10: the environment overlay built by `Prefix::command` holds exactly
`WINEPREFIX` and `DYLD_FALLBACK_LIBRARY_PATH`, then `ESYNC`, `MSYNC` and
`WINEDEBUG` under their respective conditions — never any other variable. -/
theorem c10_env_frame (pf : Prefix) (use_start_exe : Bool)
    (program : String) (debug_rules : DebugRules) :
    (pf.command use_start_exe program debug_rules).env.map Prod.fst
      = ["WINEPREFIX", "DYLD_FALLBACK_LIBRARY_PATH"] ++
        (if pf.config.esync then ["ESYNC"] else []) ++
        (if pf.config.msync then ["MSYNC"] else []) ++
        (if debug_rules.rules.isEmpty then [] else ["WINEDEBUG"]) := by
  rw [Prefix.command_eq]
  cases he : pf.config.esync <;> cases hm : pf.config.msync <;>
    cases hr : debug_rules.rules.isEmpty <;> simp

end WineRs
